import Mathlib

/-!
Verification of the sql_exporter collection core against its specification.

The Go sources embedded here are `exporter.go` (the `Gather` loop of the
scrape engine) and `target.go` (the per-target `Collect` and `ping` logic).
Pure data flow is translated into executable Lean functions; the outcomes of
the external driver calls (`OpenConnection`, `PingDB`) and the values read
from `ctx.Err()` at each observation point are passed in explicitly as an
environment record, so that the control flow of the Go code can be replayed
deterministically.
-/

/-! ## Exporter side: the data model of `exporter.Gather` -/

/-- The identity part of a metric as seen by the gather loop:
`metric.Desc().Name()` and `metric.Desc().Help()`. -/
structure MetricDesc where
  name : String
  help : String
deriving DecidableEq

/-- The written form of a `dto.Metric` as distinguished by the gather loop:
either its `Gauge` field is set, or its `Counter` field is set, or neither
(`Summary`, `Untyped`, `Histogram` or nothing at all). Values are modelled
as integers; the claims never depend on fractional values. -/
inductive DtoValue
  | gauge (v : Int)
  | counter (v : Int)
  | other
deriving DecidableEq

/-- Outcome of `metric.Write(dtoMetric)`: an error, or a written form. -/
inductive WriteOutcome
  | fail (e : String)
  | ok (v : DtoValue)
deriving DecidableEq

/-- A `Metric` drained from the sample channel, together with the
(deterministic) outcome of writing it out. -/
structure ChanMetric where
  desc : MetricDesc
  write : WriteOutcome
deriving DecidableEq

/-- `dto.MetricType`, with all the values the protobuf enum offers; the
gather loop only ever assigns `GAUGE` or `COUNTER`. -/
inductive MetricType
  | COUNTER
  | GAUGE
  | SUMMARY
  | UNTYPED
  | HISTOGRAM
deriving DecidableEq

/-- A `dto.MetricFamily` as populated by the gather loop: name, help and
type are set when the family is created, samples are appended in arrival
order. -/
structure DtoMetricFamily where
  name : String
  help : String
  type : MetricType
  metric : List DtoValue
deriving DecidableEq

/-- The state threaded through the gather loop: the family map (modelled as
an association list with pairwise distinct names, matching the Go map keyed
by metric name) and the accumulated `prometheus.MultiError`. -/
structure GatherAcc where
  families : List DtoMetricFamily
  errs : List String
deriving DecidableEq

/-- `dtoMetricFamilies[metricDesc.Name()]`: map lookup by family name. -/
def findFamily (fams : List DtoMetricFamily) (n : String) : Option DtoMetricFamily :=
  fams.find? (fun f => f.name == n)

/-- `dtoMetricFamily.Metric = append(dtoMetricFamily.Metric, dtoMetric)`:
append the written sample to the (first, and by invariant only) family of
the given name. -/
def appendToFamily (fams : List DtoMetricFamily) (n : String) (v : DtoValue) :
    List DtoMetricFamily :=
  match fams with
  | [] => []
  | f :: fs =>
    if f.name == n then { f with metric := f.metric ++ [v] } :: fs
    else f :: appendToFamily fs n v

/-- The error text produced by the `default:` branch of the type switch. -/
def unhandledMetricErr : String := "cannot handle metric"

/-- One iteration of the `for metric := range metricChan` loop in
`exporter.Gather` (exporter.go lines 89 to 113): a failed `Write` records
the error; otherwise the family is looked up by name and the sample is
appended, creating the family (typed from the written form of this first
sample) when absent; a first sample that is neither gauge nor counter is
recorded as an error. -/
def gatherStep (acc : GatherAcc) (m : ChanMetric) : GatherAcc :=
  match m.write with
  | WriteOutcome.fail e => { acc with errs := acc.errs ++ [e] }
  | WriteOutcome.ok v =>
    match findFamily acc.families m.desc.name with
    | Option.some _ =>
      { acc with families := appendToFamily acc.families m.desc.name v }
    | Option.none =>
      match v with
      | DtoValue.gauge x =>
        { acc with families :=
            acc.families ++ [⟨m.desc.name, m.desc.help, MetricType.GAUGE, [DtoValue.gauge x]⟩] }
      | DtoValue.counter x =>
        { acc with families :=
            acc.families ++ [⟨m.desc.name, m.desc.help, MetricType.COUNTER, [DtoValue.counter x]⟩] }
      | DtoValue.other =>
        { acc with errs := acc.errs ++ [unhandledMetricErr] }

/-- The whole drain loop of `exporter.Gather`, as a function of the samples
drained from the channel (in channel order): returns the family list and the
accumulated multi-error. -/
def exporterGather (samples : List ChanMetric) : List DtoMetricFamily × List String :=
  let acc := samples.foldl gatherStep ⟨[], []⟩
  (acc.families, acc.errs)

/-- Total number of samples stored across all families. -/
def famTotal (fams : List DtoMetricFamily) : Nat :=
  (fams.map (fun f => f.metric.length)).sum

/-- Samples placed plus errors recorded: the quantity that grows by exactly
one per drained sample. -/
def accMeasure (acc : GatherAcc) : Nat :=
  famTotal acc.families + acc.errs.length

/-- The type a written sample would dictate for a freshly created family. -/
def typeOfValue : DtoValue → Option MetricType
  | DtoValue.gauge _ => Option.some MetricType.GAUGE
  | DtoValue.counter _ => Option.some MetricType.COUNTER
  | DtoValue.other => Option.none

/-- Well-formedness of a single family as established at creation: nonempty,
typed gauge or counter, and the type agrees with the first stored sample. -/
def famWellFormed (fam : DtoMetricFamily) : Prop :=
  fam.metric ≠ [] ∧
  (fam.type = MetricType.GAUGE ∨ fam.type = MetricType.COUNTER) ∧
  ∃ v vs, fam.metric = v :: vs ∧ typeOfValue v = Option.some fam.type

/-- Invariant of the gather loop state: family names are pairwise distinct
and every family is well formed. -/
def gatherInv (acc : GatherAcc) : Prop :=
  (acc.families.map (fun f => f.name)).Nodup ∧ ∀ fam ∈ acc.families, famWellFormed fam

theorem famTotal_append (fams gams : List DtoMetricFamily) :
    famTotal (fams ++ gams) = famTotal fams + famTotal gams := by
  simp [famTotal]

theorem famTotal_appendToFamily (fams : List DtoMetricFamily) (n : String) (v : DtoValue)
    (f : DtoMetricFamily) (h : findFamily fams n = Option.some f) :
    famTotal (appendToFamily fams n v) = famTotal fams + 1 := by
  induction fams with
  | nil => simp [findFamily] at h
  | cons g gs ih =>
    by_cases hg : g.name == n
    · simp [appendToFamily, hg, famTotal]
      omega
    · rw [findFamily, List.find?] at h
      simp only [hg] at h
      have := ih h
      simp [appendToFamily, hg, famTotal] at this ⊢
      omega

theorem names_appendToFamily (fams : List DtoMetricFamily) (n : String) (v : DtoValue) :
    (appendToFamily fams n v).map (fun f => f.name) = fams.map (fun f => f.name) := by
  induction fams with
  | nil => rfl
  | cons g gs ih =>
    by_cases hg : g.name == n
    · simp [appendToFamily, hg]
    · simp [appendToFamily, hg, ih]

theorem mem_appendToFamily (fams : List DtoMetricFamily) (n : String) (v : DtoValue)
    (x : DtoMetricFamily) (hx : x ∈ appendToFamily fams n v) :
    ∃ y ∈ fams, x = y ∨ x = { y with metric := y.metric ++ [v] } := by
  induction fams with
  | nil => simp [appendToFamily] at hx
  | cons g gs ih =>
    by_cases hg : g.name == n
    · simp [appendToFamily, hg] at hx
      rcases hx with hx | hx
      · exact ⟨g, by simp, Or.inr hx⟩
      · exact ⟨x, by simp [hx], Or.inl rfl⟩
    · simp [appendToFamily, hg] at hx
      rcases hx with hx | hx
      · exact ⟨g, by simp, Or.inl hx⟩
      · rcases ih hx with ⟨y, hy, hxy⟩
        exact ⟨y, by simp [hy], hxy⟩

theorem findFamily_none (fams : List DtoMetricFamily) (n : String)
    (h : findFamily fams n = Option.none) :
    n ∉ fams.map (fun f => f.name) := by
  intro hn
  rcases List.mem_map.mp hn with ⟨f, hf, hfn⟩
  have := List.find?_eq_none.mp h f hf
  simp [hfn] at this

theorem famWellFormed_snoc (fam : DtoMetricFamily) (v : DtoValue)
    (h : famWellFormed fam) :
    famWellFormed { fam with metric := fam.metric ++ [v] } := by
  rcases h with ⟨h1, h2, w, ws, hw, hty⟩
  refine ⟨by simp, h2, w, ws ++ [v], ?_, hty⟩
  simp [hw]

theorem nodup_snoc (l : List String) (a : String) (h1 : l.Nodup) (h2 : a ∉ l) :
    (l ++ [a]).Nodup := by
  simp [List.nodup_append, h1, h2]

theorem gatherStep_measure (acc : GatherAcc) (m : ChanMetric) :
    accMeasure (gatherStep acc m) = accMeasure acc + 1 := by
  rcases m with ⟨d, w⟩
  cases w with
  | fail e =>
    simp only [gatherStep, accMeasure, List.length_append, List.length_cons, List.length_nil]
    omega
  | ok v =>
    rcases hf : findFamily acc.families d.name with _ | f
    · cases v <;> (simp [gatherStep, hf, accMeasure, famTotal] ; omega)
    · cases v <;>
        (simp only [gatherStep, hf, accMeasure,
          famTotal_appendToFamily acc.families d.name _ f hf] ; omega)

theorem gatherStep_inv (acc : GatherAcc) (m : ChanMetric) (h : gatherInv acc) :
    gatherInv (gatherStep acc m) := by
  rcases h with ⟨hnd, hwf⟩
  rcases m with ⟨d, w⟩
  cases w with
  | fail e => exact ⟨hnd, hwf⟩
  | ok v =>
    rcases hf : findFamily acc.families d.name with _ | f
    · have hnotin := findFamily_none acc.families d.name hf
      cases v with
      | gauge x =>
        refine ⟨?_, ?_⟩
        · simp only [gatherStep, hf, List.map_append, List.map_cons, List.map_nil]
          exact nodup_snoc _ _ hnd (by simpa using hnotin)
        · intro fam hfam
          simp only [gatherStep, hf, List.mem_append, List.mem_cons, List.not_mem_nil,
            or_false] at hfam
          rcases hfam with hfam | hfam
          · exact hwf fam hfam
          · subst hfam
            exact ⟨by simp, Or.inl rfl, DtoValue.gauge x, [], rfl, rfl⟩
      | counter x =>
        refine ⟨?_, ?_⟩
        · simp only [gatherStep, hf, List.map_append, List.map_cons, List.map_nil]
          exact nodup_snoc _ _ hnd (by simpa using hnotin)
        · intro fam hfam
          simp only [gatherStep, hf, List.mem_append, List.mem_cons, List.not_mem_nil,
            or_false] at hfam
          rcases hfam with hfam | hfam
          · exact hwf fam hfam
          · subst hfam
            exact ⟨by simp, Or.inr rfl, DtoValue.counter x, [], rfl, rfl⟩
      | other =>
        refine ⟨?_, ?_⟩
        · simp only [gatherStep, hf]
          exact hnd
        · intro fam hfam
          simp only [gatherStep, hf] at hfam
          exact hwf fam hfam
    · refine ⟨?_, ?_⟩
      · simp only [gatherStep, hf]
        simpa [names_appendToFamily] using hnd
      · intro fam hfam
        simp only [gatherStep, hf] at hfam
        rcases mem_appendToFamily acc.families d.name v fam hfam with ⟨y, hy, hxy⟩
        rcases hxy with hxy | hxy
        · exact hxy ▸ hwf y hy
        · exact hxy ▸ famWellFormed_snoc y v (hwf y hy)

theorem foldl_gatherStep_measure (samples : List ChanMetric) (acc : GatherAcc) :
    accMeasure (samples.foldl gatherStep acc) = accMeasure acc + samples.length := by
  induction samples generalizing acc with
  | nil => simp
  | cons m ms ih =>
    simp only [List.foldl_cons, List.length_cons]
    rw [ih, gatherStep_measure]
    omega

theorem foldl_gatherStep_inv (samples : List ChanMetric) (acc : GatherAcc)
    (h : gatherInv acc) : gatherInv (samples.foldl gatherStep acc) := by
  induction samples generalizing acc with
  | nil => exact h
  | cons m ms ih => exact ih _ (gatherStep_inv acc m h)

/-! ## Target side: `target.ping` and `target.Collect` -/

/-- A Go error as distinguished by `target.ping`: the error value returned
by the expired context (`context.DeadlineExceeded`) or any other error. -/
inductive GoErr
  | ctxDeadline
  | otherErr (msg : String)
deriving DecidableEq

/-- The environment of one run of `target.ping`: the outcomes the external
driver calls would produce if invoked, and the value `ctx.Err()` yields at
each of the four points where the Go code reads it (the reads happen in
this order; an expired context stays expired). -/
structure PingEnv where
  openResult : Option GoErr
  pingResult : Option GoErr
  ctxErr1 : Option GoErr
  ctxErr2 : Option GoErr
  ctxErr3 : Option GoErr
  ctxErr4 : Option GoErr
deriving DecidableEq

/-- The last two statements of `target.ping`: `if ctx.Err() != nil { return
ctx.Err() }; return nil`, with the connection field unchanged. -/
def pingFinal (conn : Bool) (env : PingEnv) : Option GoErr × Bool :=
  (env.ctxErr4, conn)

/-- The middle of `target.ping`: `if t.conn != nil && ctx.Err() == nil`
then `PingDB`, returning a ping error only when it differs from
`ctx.Err()`, otherwise falling through to the final context check. -/
def pingProbe (conn : Bool) (env : PingEnv) : Option GoErr × Bool :=
  if conn = true ∧ env.ctxErr2 = Option.none then
    match env.pingResult with
    | Option.some e =>
      if Option.some e ≠ env.ctxErr3 then (Option.some e, conn) else pingFinal conn env
    | Option.none => pingFinal conn env
  else pingFinal conn env

/-- `target.ping` (target.go lines 118 to 148), as a function of the current
connection field (`true` when `t.conn != nil`) and the environment; returns
the error result and the new value of the connection field. The open step
runs only when the handle is nil; an open error (`some e`; `none` is success) is returned early unless it
equals `ctx.Err()`; a successful open sets the handle before the ping step. -/
def targetPing (conn : Bool) (env : PingEnv) : Option GoErr × Bool :=
  if conn then pingProbe conn env
  else
    match env.openResult with
    | Option.some e =>
      if Option.some e ≠ env.ctxErr1 then (Option.some e, false)
      else pingProbe false env
    | Option.none => pingProbe true env

/-- A sample emitted by a collector subtask: either a metric sample or an
invalid-metric carrier produced inside the collector. -/
inductive CSample
  | metricSample (name : String) (value : Int)
  | invalidSample (e : GoErr)
deriving DecidableEq

/-- A sample sent on the channel by the target task or its collectors. -/
inductive Sample
  | invalid (e : GoErr)
  | up (v : Int)
  | scrapeDuration
  | fromCollector (s : CSample)
deriving DecidableEq

/-- `boolToFloat64` (target.go lines 151 to 156); values modelled as
integers since only 0.0 and 1.0 occur. -/
def boolToFloat64 (value : Bool) : Int :=
  if value then 1 else 0

/-- The sequence of channel sends performed by one run of `target.Collect`
(target.go lines 85 to 116), as a function of the result of `t.ping` and of
the merged emission sequence of the collector subtasks (`collectorOut` is an
arbitrary interleaving of the per-collector send sequences; all of them
happen after the spawn, which follows the `up` send, and before the join,
which precedes the `scrape_duration_seconds` send). A ping error sends one
invalid metric and flips `targetUp`; `up` is sent unconditionally; the
collectors run only when the target is up; the duration sample is sent last. -/
def targetCollect (pingRes : Option GoErr) (collectorOut : List CSample) : List Sample :=
  (match pingRes with
   | Option.some e => [Sample.invalid e]
   | Option.none => [])
  ++ [Sample.up (boolToFloat64 pingRes.isNone)]
  ++ (if pingRes.isNone then collectorOut.map Sample.fromCollector else [])
  ++ [Sample.scrapeDuration]

/-- One full scrape of a target: `ping` followed by the rest of `Collect`;
returns the channel trace and the new connection field. -/
def targetScrape (conn : Bool) (env : PingEnv) (collectorOut : List CSample) :
    List Sample × Bool :=
  (targetCollect (targetPing conn env).1 collectorOut, (targetPing conn env).2)

/-- Number of samples in a trace satisfying a predicate. -/
def countWhere (p : Sample → Bool) (tr : List Sample) : Nat :=
  (tr.filter p).length

def isUp : Sample → Bool
  | Sample.up _ => true
  | _ => false

def isDuration : Sample → Bool
  | Sample.scrapeDuration => true
  | _ => false

def isInvalid : Sample → Bool
  | Sample.invalid _ => true
  | _ => false

def isCollectorSample : Sample → Bool
  | Sample.fromCollector _ => true
  | _ => false

theorem pingProbe_snd (conn : Bool) (env : PingEnv) : (pingProbe conn env).2 = conn := by
  unfold pingProbe pingFinal
  split
  · split
    · split <;> rfl
    · rfl
  · rfl

theorem targetPing_open_error (env : PingEnv) (e : GoErr)
    (h : env.openResult = Option.some e) : (targetPing false env).2 = false := by
  unfold targetPing
  rw [h]
  simp only [Bool.false_eq_true, if_false]
  split
  · rfl
  · exact pingProbe_snd false env

theorem targetPing_open_ok (env : PingEnv)
    (h : env.openResult = Option.none) : (targetPing false env).2 = true := by
  unfold targetPing
  rw [h]
  simp only [Bool.false_eq_true, if_false]
  exact pingProbe_snd true env

theorem targetPing_conn_true (env : PingEnv) : targetPing true env = pingProbe true env := by
  unfold targetPing
  simp

theorem countWhere_map_fromCollector (p : Sample → Bool) (out : List CSample)
    (h : ∀ s, p (Sample.fromCollector s) = false) :
    countWhere p (out.map Sample.fromCollector) = 0 := by
  induction out with
  | nil => rfl
  | cons a l ih =>
    simp only [countWhere, List.map_cons, List.filter_cons, h a] at *
    exact ih

theorem countWhere_append (p : Sample → Bool) (l1 l2 : List Sample) :
    countWhere p (l1 ++ l2) = countWhere p l1 + countWhere p l2 := by
  simp [countWhere]

/-! ## Globals and the Gather deadline -/

/-- The `globals` section of the configuration (spec section 3); durations
in nanoseconds as Go `time.Duration` values, modelled as naturals. -/
structure Globals where
  min_interval : Nat
  scrape_timeout : Nat
  scrape_timeout_offset : Nat
  max_connections : Nat
deriving DecidableEq

/-- exporter.go line 57: `context.WithTimeout(context.Background(),
time.Duration(e.config.Globals.ScrapeTimeout))` — the deadline of the
context every Gather runs under, as a function of the current time. The
parent is `context.Background()`, which carries no deadline. -/
def gatherContextDeadline (now : Nat) (g : Globals) : Nat :=
  now + g.scrape_timeout

/-- Modelled from the spec: the claimed effective deadline, with
`scrape_timeout_offset` subtracted from the upstream deadline when one is
present and composed with the `scrape_timeout` budget. No code under src
performs this composition; this definition follows the words of the claim
for comparison with `gatherContextDeadline`. -/
def gatherDeadlineClaimed (now : Nat) (g : Globals) (upstreamDeadline : Option Nat) : Nat :=
  match upstreamDeadline with
  | Option.none => now + g.scrape_timeout
  | Option.some d => min (now + g.scrape_timeout) (d - g.scrape_timeout_offset)

/-! ## Claim C1 -/

/-- Input refuting the type-consistency part of C1: two valid samples with
the same metric name, the first written as a gauge, the second as a counter
with different help text. -/
def cexTypeMix : List ChanMetric :=
  [⟨⟨"x", "h1"⟩, WriteOutcome.ok (DtoValue.gauge 1)⟩,
   ⟨⟨"x", "h2"⟩, WriteOutcome.ok (DtoValue.counter 2)⟩]

/-- C1 counterexample: the gather loop appends a counter-written sample to
a GAUGE-typed family without recording any error, and keeps the help text
of the first sample only; the samples of the returned family do not share
one type or one help text, so no type consistency is asserted. -/
theorem gather_type_consistency_cex :
    (exporterGather cexTypeMix).1 =
      [⟨"x", "h1", MetricType.GAUGE, [DtoValue.gauge 1, DtoValue.counter 2]⟩] ∧
    (exporterGather cexTypeMix).2 = [] ∧
    ∃ fam ∈ (exporterGather cexTypeMix).1, fam.type = MetricType.GAUGE ∧
      ∃ v ∈ fam.metric, typeOfValue v = Option.some MetricType.COUNTER := by
  decide

/-- C1 (amended): each valid sample drained from the channel is appended to
the family looked up or created by its metric name; a family created for a
first sample takes its name and help from the descriptor and its type from
the written form of that first sample (so the type always agrees with the
first stored sample), but no type- or help-consistency check is applied to
later samples of the same name. -/
theorem gather_append_by_name (samples : List ChanMetric) :
    (∀ fam ∈ (exporterGather samples).1,
        ∃ v vs, fam.metric = v :: vs ∧ typeOfValue v = Option.some fam.type) ∧
    (∀ (acc : GatherAcc) (d : MetricDesc) (v : DtoValue) (f : DtoMetricFamily),
        findFamily acc.families d.name = Option.some f →
        gatherStep acc ⟨d, WriteOutcome.ok v⟩ =
          { acc with families := appendToFamily acc.families d.name v }) ∧
    (∀ (acc : GatherAcc) (d : MetricDesc) (x : Int),
        findFamily acc.families d.name = Option.none →
        gatherStep acc ⟨d, WriteOutcome.ok (DtoValue.gauge x)⟩ =
          { acc with families :=
              acc.families ++ [⟨d.name, d.help, MetricType.GAUGE, [DtoValue.gauge x]⟩] }) ∧
    (∀ (acc : GatherAcc) (d : MetricDesc) (x : Int),
        findFamily acc.families d.name = Option.none →
        gatherStep acc ⟨d, WriteOutcome.ok (DtoValue.counter x)⟩ =
          { acc with families :=
              acc.families ++ [⟨d.name, d.help, MetricType.COUNTER, [DtoValue.counter x]⟩] }) := by
  refine ⟨?_, ?_, ?_, ?_⟩
  · intro fam hfam
    have h := foldl_gatherStep_inv samples ⟨[], []⟩ ⟨by simp, by simp⟩
    exact (h.2 fam hfam).2.2
  · intro acc d v f h
    simp [gatherStep, h]
  · intro acc d x h
    simp [gatherStep, h]
  · intro acc d x h
    simp [gatherStep, h]

/-- C1 witness: the append-to-existing-family branch evaluated at a concrete
state holding a GAUGE family, fed a counter-written sample of the same name. -/
theorem gather_append_by_name_witness :
    gatherStep ⟨[⟨"x", "h1", MetricType.GAUGE, [DtoValue.gauge 1]⟩], []⟩
        ⟨⟨"x", "h2"⟩, WriteOutcome.ok (DtoValue.counter 2)⟩ =
      ⟨[⟨"x", "h1", MetricType.GAUGE, [DtoValue.gauge 1, DtoValue.counter 2]⟩], []⟩ := by
  have h := (gather_append_by_name []).2.1
    ⟨[⟨"x", "h1", MetricType.GAUGE, [DtoValue.gauge 1]⟩], []⟩
    ⟨"x", "h2"⟩ (DtoValue.counter 2)
    ⟨"x", "h1", MetricType.GAUGE, [DtoValue.gauge 1]⟩ (by decide)
  exact h.trans (by decide)

/-! ## Claim C2 -/

/-- C2 counterexample: with `scrape_timeout = 10`, `scrape_timeout_offset =
5` and an upstream deadline of 8, the deadline the code installs differs
from the claimed composed deadline; and the code deadline does not change
when the offset does, because `Gather` derives its context from
`context.Background()` and never reads the offset. -/
theorem gather_deadline_offset_cex :
    gatherContextDeadline 0 ⟨0, 10, 5, 3⟩ ≠ gatherDeadlineClaimed 0 ⟨0, 10, 5, 3⟩ (Option.some 8) ∧
    gatherContextDeadline 0 ⟨0, 10, 5, 3⟩ = gatherContextDeadline 0 ⟨0, 10, 999, 3⟩ := by
  decide

/-- C2 (amended): at the start of every Gather the engine creates a
deadline-scoped context over a fresh background context whose budget equals
`globals.scrape_timeout`; there is no upstream deadline, and
`globals.scrape_timeout_offset` does not enter the computation. -/
theorem gather_deadline_budget (now : Nat) (g : Globals) (off : Nat) :
    gatherContextDeadline now g = now + g.scrape_timeout ∧
    gatherContextDeadline now { g with scrape_timeout_offset := off } =
      gatherContextDeadline now g :=
  ⟨rfl, rfl⟩

/-! ## Claim C3 -/

/-- Environment where `OpenConnection` succeeds and the deadline then
expires during `PingDB` (the ping returns the context error). -/
def envOpenOkPingExpired : PingEnv :=
  ⟨Option.none, Option.some GoErr.ctxDeadline, Option.none, Option.none,
   Option.some GoErr.ctxDeadline, Option.some GoErr.ctxDeadline⟩

/-- C3 counterexample: a deadline expiry during ping does NOT leave the
handle unopened — the open succeeded just before, the connection field ends
up set, and the next scrape will not retry the open. -/
theorem ping_expiry_opened_cex :
    (targetPing false envOpenOkPingExpired).1 = Option.some GoErr.ctxDeadline ∧
    (targetPing false envOpenOkPingExpired).2 = true ∧
    ¬(targetPing false envOpenOkPingExpired).2 = false := by
  decide

/-- C3 (amended): the connection handle is opened at most once successfully
and reused by all subsequent scrapes; any failure of the open step —
deadline expiry included — leaves the handle unopened so that the next
scrape retries the open; but once the open succeeds the handle stays set
even when the subsequent ping fails or the deadline expires during it. -/
theorem ping_open_lifecycle (env : PingEnv) (e : GoErr) :
    ((targetPing true env).2 = true) ∧
    (env.openResult = Option.some e → (targetPing false env).2 = false) ∧
    ((targetPing false env).2 = true → env.openResult = Option.none) := by
  refine ⟨?_, fun h => targetPing_open_error env e h, fun h => ?_⟩
  · rw [targetPing_conn_true]
    exact pingProbe_snd true env
  · rcases ho : env.openResult with _ | e'
    · rfl
    · rw [targetPing_open_error env e' ho] at h
      cases h

/-- Environment where `OpenConnection` itself fails with a driver error. -/
def envOpenFailedDown : PingEnv :=
  ⟨Option.some (GoErr.otherErr "down"), Option.none, Option.none, Option.none,
   Option.none, Option.none⟩

/-- C3 witness: a failed open at a concrete environment leaves the handle
unopened. -/
theorem ping_open_lifecycle_witness :
    (targetPing false envOpenFailedDown).2 = false :=
  (ping_open_lifecycle envOpenFailedDown (GoErr.otherErr "down")).2.1 rfl

/-! ## Claim C4 -/

/-- C4: if the probe (open then ping) fails for any reason other than
deadline expiry, the target sends exactly one invalid metric carrying that
failure and `up = 0`, and no collector sample appears; if the probe
succeeds the target sends `up = 1` followed by every collector sample. -/
theorem probe_gates_collectors (conn : Bool) (env : PingEnv) (out : List CSample) (e : GoErr) :
    ((targetPing conn env).1 = Option.some e → e ≠ GoErr.ctxDeadline →
      (targetScrape conn env out).1 =
        [Sample.invalid e, Sample.up 0, Sample.scrapeDuration]) ∧
    ((targetPing conn env).1 = Option.none →
      (targetScrape conn env out).1 =
        Sample.up 1 :: (out.map Sample.fromCollector ++ [Sample.scrapeDuration]) ∧
      ∀ s ∈ out, Sample.fromCollector s ∈ (targetScrape conn env out).1) := by
  constructor
  · intro h _
    simp [targetScrape, h, targetCollect, boolToFloat64]
  · intro h
    have heq : (targetScrape conn env out).1 =
        Sample.up 1 :: (out.map Sample.fromCollector ++ [Sample.scrapeDuration]) := by
      simp [targetScrape, h, targetCollect, boolToFloat64]
    refine ⟨heq, fun s hs => ?_⟩
    rw [heq]
    exact List.mem_cons_of_mem _
      (List.mem_append_left _ (List.mem_map_of_mem Sample.fromCollector hs))

/-- Environment where the open step fails with a connection-refused error. -/
def envProbeRefused : PingEnv :=
  ⟨Option.some (GoErr.otherErr "refused"), Option.none, Option.none, Option.none,
   Option.none, Option.none⟩

/-- Environment where open and ping both succeed with a live context. -/
def envProbeClean : PingEnv :=
  ⟨Option.none, Option.none, Option.none, Option.none, Option.none, Option.none⟩

/-- C4 witness: both branches evaluated at concrete environments — a refused
probe produces exactly the invalid, `up = 0` and duration samples; a clean
probe produces `up = 1` and includes the collector sample. -/
theorem probe_gates_collectors_witness :
    (targetScrape false envProbeRefused [CSample.metricSample "m" 1]).1 =
      [Sample.invalid (GoErr.otherErr "refused"), Sample.up 0, Sample.scrapeDuration] ∧
    Sample.fromCollector (CSample.metricSample "m" 1) ∈
      (targetScrape false envProbeClean [CSample.metricSample "m" 1]).1 :=
  ⟨(probe_gates_collectors false envProbeRefused [CSample.metricSample "m" 1]
      (GoErr.otherErr "refused")).1 (by decide) (by decide),
   ((probe_gates_collectors false envProbeClean [CSample.metricSample "m" 1]
      GoErr.ctxDeadline).2 (by decide)).2 (CSample.metricSample "m" 1) (by decide)⟩

/-! ## Claim C5 -/

theorem filter_map_fromCollector_up (out : List CSample) :
    (out.map Sample.fromCollector).filter isUp = [] := by
  induction out with
  | nil => rfl
  | cons a l ih => simp [List.filter, isUp, ih]

theorem filter_map_fromCollector_dur (out : List CSample) :
    (out.map Sample.fromCollector).filter isDuration = [] := by
  induction out with
  | nil => rfl
  | cons a l ih => simp [List.filter, isDuration, ih]

/-- C5: every run of `target.Collect` sends exactly one `up` sample and
exactly one `scrape_duration_seconds` sample, whatever the probe result and
whatever the collectors emit. -/
theorem collect_up_duration_once (pingRes : Option GoErr) (out : List CSample) :
    countWhere isUp (targetCollect pingRes out) = 1 ∧
    countWhere isDuration (targetCollect pingRes out) = 1 := by
  cases pingRes <;>
    simp [targetCollect, countWhere, List.filter_append, List.filter, isUp, isDuration,
      filter_map_fromCollector_up, filter_map_fromCollector_dur]

/-! ## Claim C6 -/

/-- Concrete drain containing one valid sample and one failing sample. -/
def samplesMultiErr : List ChanMetric :=
  [⟨⟨"a", "h"⟩, WriteOutcome.ok (DtoValue.gauge 1)⟩,
   ⟨⟨"b", "h"⟩, WriteOutcome.fail "boom"⟩]

/-- C6: Gather never fails on the first error — every drained sample either
lands in a family or contributes exactly one entry to the error list (so the
loop runs to completion and returns everything it collected together with
all accumulated errors), and the error list can be non-empty alongside a
non-empty family list. -/
theorem gather_multi_error (samples : List ChanMetric) :
    famTotal (exporterGather samples).1 + (exporterGather samples).2.length =
      samples.length ∧
    ((exporterGather samplesMultiErr).1 ≠ [] ∧ (exporterGather samplesMultiErr).2 ≠ []) := by
  refine ⟨?_, by decide⟩
  have h := foldl_gatherStep_measure samples ⟨[], []⟩
  simpa [exporterGather, accMeasure, famTotal] using h

/-! ## Claim C7 -/

/-- Environment where the context is already expired when the scrape
starts: open and ping would both report the context error. -/
def envExpiredFromStart : PingEnv :=
  ⟨Option.some GoErr.ctxDeadline, Option.some GoErr.ctxDeadline,
   Option.some GoErr.ctxDeadline, Option.some GoErr.ctxDeadline,
   Option.some GoErr.ctxDeadline, Option.some GoErr.ctxDeadline⟩

/-- C7 counterexample: with the deadline already expired, the target task
does not shut down without enqueuing further samples — it still enqueues
three samples (the invalid metric, `up = 0` and the duration sample),
because the channel sends in `target.Collect` are unconditional and never
select on the context. -/
theorem collect_sends_after_expiry_cex :
    (targetScrape false envExpiredFromStart [CSample.metricSample "m" 1]).1 =
      [Sample.invalid GoErr.ctxDeadline, Sample.up 0, Sample.scrapeDuration] ∧
    (targetScrape false envExpiredFromStart [CSample.metricSample "m" 1]).1.length = 3 := by
  decide

/-- C7 (amended): deadline expiry suppresses only the collector samples:
whenever the probe reports the context deadline error, the trace of
`target.Collect` is exactly the invalid metric, `up = 0` and the duration
sample — these three sends still happen after expiry, and no collector
sample is enqueued. -/
theorem expiry_suppresses_only_collectors (conn : Bool) (env : PingEnv) (out : List CSample)
    (h : (targetPing conn env).1 = Option.some GoErr.ctxDeadline) :
    (targetScrape conn env out).1 =
      [Sample.invalid GoErr.ctxDeadline, Sample.up 0, Sample.scrapeDuration] := by
  simp [targetScrape, h, targetCollect, boolToFloat64]

/-- C7 witness: the amended statement evaluated at the concrete expired
environment. -/
theorem expiry_suppresses_only_collectors_witness :
    (targetScrape false envExpiredFromStart [CSample.metricSample "m" 2]).1 =
      [Sample.invalid GoErr.ctxDeadline, Sample.up 0, Sample.scrapeDuration] :=
  expiry_suppresses_only_collectors false envExpiredFromStart
    [CSample.metricSample "m" 2] (by decide)

/-! ## Claim C8 -/

/-- C8: within a single run of `target.Collect` the trace decomposes as a
prefix of invalid metrics (the probe failure, if any), then the `up`
sample, then a middle segment consisting solely of collector samples, then
the `scrape_duration_seconds` sample; every collector sample of the trace
lies in that middle segment, i.e. `up` is sent before any collector sample
and the duration sample after all of them. -/
theorem collect_sample_ordering (pingRes : Option GoErr) (out : List CSample) :
    ∃ pre mid,
      targetCollect pingRes out =
        pre ++ Sample.up (boolToFloat64 pingRes.isNone) :: (mid ++ [Sample.scrapeDuration]) ∧
      (∀ x ∈ pre, ∃ e, x = Sample.invalid e) ∧
      (∀ x ∈ mid, ∃ s, x = Sample.fromCollector s) ∧
      (∀ s, Sample.fromCollector s ∈ targetCollect pingRes out →
        Sample.fromCollector s ∈ mid) := by
  cases pingRes with
  | some e =>
    refine ⟨[Sample.invalid e], [], by simp [targetCollect], ?_, ?_, ?_⟩
    · intro x hx
      simp at hx
      exact ⟨e, hx⟩
    · intro x hx
      simp at hx
    · intro s hs
      simp [targetCollect] at hs
  | none =>
    refine ⟨[], out.map Sample.fromCollector, by simp [targetCollect], ?_, ?_, ?_⟩
    · intro x hx
      simp at hx
    · intro x hx
      rcases List.mem_map.mp hx with ⟨s, _, hsx⟩
      exact ⟨s, hsx.symm⟩
    · intro s hs
      have hs' : Sample.fromCollector s ∈
          Sample.up (boolToFloat64 (Option.none : Option GoErr).isNone) ::
            (List.map Sample.fromCollector out ++ [Sample.scrapeDuration]) := by
        simpa [targetCollect] using hs
      rcases List.mem_cons.mp hs' with h | h
      · exact absurd h (by simp)
      · rcases List.mem_append.mp h with h | h
        · exact h
        · exact absurd h (by simp)

/-- C8 witness: the decomposition evaluated at a concrete trace with one
collector sample, together with the collector sample indeed occurring in
the trace. -/
theorem collect_sample_ordering_witness :
    Sample.fromCollector (CSample.metricSample "m" 3) ∈
      targetCollect Option.none [CSample.metricSample "m" 3] ∧
    ∃ pre mid,
      targetCollect Option.none [CSample.metricSample "m" 3] =
        pre ++ Sample.up 1 :: (mid ++ [Sample.scrapeDuration]) := by
  constructor
  · decide
  · rcases collect_sample_ordering Option.none [CSample.metricSample "m" 3] with
      ⟨pre, mid, h1, _, _, _⟩
    exact ⟨pre, mid, by simpa [boolToFloat64] using h1⟩

/-! ## Claim C9 -/

/-- C9: once the connection field is set it is never reassigned or reset —
a scrape that starts with the handle set ends with it set, and its entire
outcome is independent of the open-step environment (the open is skipped);
moreover the field is set as soon as `OpenConnection` succeeds, whatever
the subsequent ping does. -/
theorem conn_set_once_and_reused (env : PingEnv) :
    ((targetPing true env).2 = true) ∧
    (env.openResult = Option.none → (targetPing false env).2 = true) ∧
    (∀ env' : PingEnv, env.pingResult = env'.pingResult → env.ctxErr2 = env'.ctxErr2 →
      env.ctxErr3 = env'.ctxErr3 → env.ctxErr4 = env'.ctxErr4 →
      targetPing true env = targetPing true env') := by
  refine ⟨?_, fun h => targetPing_open_ok env h, ?_⟩
  · rw [targetPing_conn_true]
    exact pingProbe_snd true env
  · intro env' h1 h2 h3 h4
    rw [targetPing_conn_true, targetPing_conn_true]
    unfold pingProbe pingFinal
    rw [h1, h2, h3, h4]

/-- Environment where the open succeeds and the ping then fails with a
driver error while the context stays live. -/
def envOpenOkPingFail : PingEnv :=
  ⟨Option.none, Option.some (GoErr.otherErr "ping failed"), Option.none, Option.none,
   Option.none, Option.none⟩

/-- C9 witness: after a successful open with a failing ping, the handle is
set; and a scrape starting with the handle set ignores the open outcome. -/
theorem conn_set_once_and_reused_witness :
    (targetPing false envOpenOkPingFail).2 = true ∧
    targetPing true envOpenOkPingFail =
      targetPing true ⟨Option.some (GoErr.otherErr "down"),
        Option.some (GoErr.otherErr "ping failed"), Option.some GoErr.ctxDeadline,
        Option.none, Option.none, Option.none⟩ :=
  ⟨(conn_set_once_and_reused envOpenOkPingFail).2.1 rfl,
   (conn_set_once_and_reused envOpenOkPingFail).2.2
     ⟨Option.some (GoErr.otherErr "down"), Option.some (GoErr.otherErr "ping failed"),
      Option.some GoErr.ctxDeadline, Option.none, Option.none, Option.none⟩
     rfl rfl rfl rfl⟩

/-! ## Claim C10 -/

/-- Input refuting the last part of C10: a valid gauge sample followed by a
valid sample of the same name whose written form is neither gauge nor
counter. -/
def cexUntypedAppend : List ChanMetric :=
  [⟨⟨"y", "h"⟩, WriteOutcome.ok (DtoValue.gauge 1)⟩,
   ⟨⟨"y", "h"⟩, WriteOutcome.ok DtoValue.other⟩]

/-- C10 counterexample: a sample whose written form is neither gauge nor
counter but whose family already exists is appended to that family and
contributes nothing to the error list — the type switch runs only when the
family is created. -/
theorem gather_untyped_appended_cex :
    (exporterGather cexUntypedAppend).1 =
      [⟨"y", "h", MetricType.GAUGE, [DtoValue.gauge 1, DtoValue.other]⟩] ∧
    (exporterGather cexUntypedAppend).2 = [] := by
  decide

/-- C10 (amended): in every family list returned by Gather the names are
pairwise distinct, every family holds at least one sample and is typed
GAUGE or COUNTER; a sample whose Write fails contributes to the error list
and to no family; a sample whose written form is neither gauge nor counter
contributes to the error list and to no family only when no family of its
name exists yet — when one does, it is appended there without an error. -/
theorem gather_family_shape (samples : List ChanMetric) :
    (((exporterGather samples).1.map (fun f => f.name)).Nodup ∧
      ∀ fam ∈ (exporterGather samples).1,
        fam.metric ≠ [] ∧ (fam.type = MetricType.GAUGE ∨ fam.type = MetricType.COUNTER)) ∧
    (∀ (acc : GatherAcc) (d : MetricDesc) (e : String),
        gatherStep acc ⟨d, WriteOutcome.fail e⟩ = { acc with errs := acc.errs ++ [e] }) ∧
    (∀ (acc : GatherAcc) (d : MetricDesc),
        findFamily acc.families d.name = Option.none →
        gatherStep acc ⟨d, WriteOutcome.ok DtoValue.other⟩ =
          { acc with errs := acc.errs ++ [unhandledMetricErr] }) := by
  refine ⟨⟨?_, ?_⟩, ?_, ?_⟩
  · exact (foldl_gatherStep_inv samples ⟨[], []⟩ ⟨by simp, by simp⟩).1
  · intro fam hfam
    have h := foldl_gatherStep_inv samples ⟨[], []⟩ ⟨by simp, by simp⟩
    exact ⟨(h.2 fam hfam).1, (h.2 fam hfam).2.1⟩
  · intro acc d e
    simp [gatherStep]
  · intro acc d h
    simp [gatherStep, h]

/-- C10 witness: the first-of-its-name unhandled sample evaluated at the
empty state — it lands in the error list and creates no family. -/
theorem gather_family_shape_witness :
    gatherStep ⟨[], []⟩ ⟨⟨"z", "h"⟩, WriteOutcome.ok DtoValue.other⟩ =
      ⟨[], [unhandledMetricErr]⟩ := by
  have h := (gather_family_shape []).2.2 ⟨[], []⟩ ⟨"z", "h"⟩ (by decide)
  exact h.trans (by decide)
